import Mathlib

/-!
# Verification of the `naive-rpc` JSON-RPC 2.0 runtime

A shallow embedding, in Lean 4, of the dispatch core of the `simpleRpc`
(naive-rpc) repository: the wire codec (`jsonrpc2` Request/Response/Error
records), the method invoker (`method`), the server dispatcher (`server`)
with its optional at-most-once policy, and the client's id counter.

Conventions of the embedding:
* JSON payloads (`json.RawMessage`) are modelled at the JSON-tree level
  (`Json`), so byte-level concerns (whitespace, escaping) are abstracted;
  a Go `nil` RawMessage is `Option.none`, a non-nil one holding the bytes
  of a JSON value `j` is `some j`.
* Go's in-place mutation is modelled by explicit state passing: a Go
  method that mutates its receiver and returns `error` becomes a Lean
  function returning the new state paired with `Option String` (the
  error message, `none` for success).
* Machine integers (`int64` ids, the client counter) are modelled as
  `Int` with explicit two's-complement wrapping where overflow matters.
-/

set_option autoImplicit false

namespace SimpleRpc

/-- A JSON value tree. `params`, `result` and `data` payloads are kept in
this form (the Go code keeps them as raw bytes; we keep the parsed tree,
which identifies byte strings up to JSON-value equality). Numbers are
restricted to integers: every number the runtime itself produces (ids,
error codes) is integral, and none of the verified properties depend on
non-integral numerics. -/
inductive Json where
  | null
  | bool (b : Bool)
  | num (n : Int)
  | str (s : String)
  | arr (elems : List Json)
  | obj (members : List (String × Json))

/-- `JsonRpc2` is the version of JSON-RPC 2.0 (codec.go). -/
def JsonRpc2 : String := "2.0"

/-- Request object for JSON-RPC 2.0 (codec.go). `params` is kept opaque
(`json.RawMessage`, here `Option Json` with `none` for Go `nil`); `id` is
`*int64`, `none` for Go `nil`. -/
structure Request where
  jsonRpc : String
  method : String
  params : Option Json
  id : Option Int

/-- Error object for JSON-RPC 2.0 (codec.go). `data` is a
`json.RawMessage` with `omitempty`. -/
structure ErrorObj where
  code : Int
  message : String
  data : Option Json

/-- Response object for JSON-RPC 2.0 (codec.go). `result` and `error`
carry `omitempty`; `id` is `*int64` (int or null). -/
structure Response where
  jsonRpc : String
  result : Option Json
  error : Option ErrorObj
  id : Option Int

/-- `Request.validate` (codec.go): version must be "2.0", method
non-empty, id non-nil. Returns the error message, or `none` if valid. -/
def Request.validate (r : Request) : Option String :=
  if r.jsonRpc ≠ JsonRpc2 then some "invalid jsonrpc version"
  else if r.method = "" then some "method should not be empty"
  else if r.id.isNone then some "id should not be nil"
  else none

/-- `Response.validate` (codec.go): version must be "2.0" and exactly one
of result/error must be set (neither and both are each rejected). -/
def Response.validate (r : Response) : Option String :=
  if r.jsonRpc ≠ JsonRpc2 then some "invalid jsonrpc version"
  else if r.result.isNone && r.error.isNone then some "either result or error should not be nil"
  else if r.result.isSome && r.error.isSome then some "either result or error should not be nil"
  else none

/-- `Error.withReason` (codec.go): stores `{"reason": reason}` in the
`data` field (in place in Go; functionally here). -/
def ErrorObj.withReason (e : ErrorObj) (reason : String) : ErrorObj :=
  { e with data := some (Json.obj [("reason", Json.str reason)]) }

/-- `ErrParseError` (codec.go). -/
def ErrParseError : ErrorObj := { code := -32700, message := "Parse error", data := none }

/-- `ErrInvalidRequest` (codec.go). -/
def ErrInvalidRequest : ErrorObj := { code := -32600, message := "Invalid Request", data := none }

/-- `ErrMethodNotFound` (codec.go). -/
def ErrMethodNotFound : ErrorObj := { code := -32601, message := "Method not found", data := none }

/-- `ErrInvalidParams` (codec.go). -/
def ErrInvalidParams : ErrorObj := { code := -32602, message := "Invalid params", data := none }

/-- `ErrInternalError` (codec.go). -/
def ErrInternalError : ErrorObj := { code := -32603, message := "Internal error", data := none }

/-- `ErrServerError` (codec.go). -/
def ErrServerError : ErrorObj := { code := -32000, message := "Server error", data := none }

/-- Modelled from the spec: the `ErrAtMostOnce` constructor is called by
`server.ServeRPC` (server.go line 90) but its definition is not among the
provided source files. Per the spec (§6), AtMostOnce is "a dedicated
application-defined code distinct from the reserved ranges"; we fix an
arbitrary application-defined code. The verified properties depend only
on this being a single distinguished error value, not on the code. -/
def ErrAtMostOnce : ErrorObj :=
  { code := -1000, message := "Request already executed (at most once)", data := none }

/-- `errorResponse` (codec.go): a Response carrying only an error. -/
def errorResponse (id : Option Int) (err : ErrorObj) : Response :=
  { jsonRpc := JsonRpc2, result := none, error := some err, id := id }

/-! ## The Go type/value model

The invoker (`method` in server.go) manipulates registered functions
through `reflect`. We model the fragment of Go's type universe that JSON
decoding can target: scalars, structs, slices, string-keyed maps,
pointers, the empty interface, the `error` interface, and opaque named
types (carrying whether their method set implements `error`). -/

/-- A Go type as observed through `reflect.Type` by the invoker. -/
inductive GoType where
  | tInt
  | tBool
  | tString
  | tStruct (fields : List (String × GoType))
  | tSlice (elem : GoType)
  | tMap (elem : GoType)
  | tPtr (elem : GoType)
  | tIface
  | tError
  | tOpaque (name : String) (implErr : Bool)

/-- `reflect.Type.Implements(errorInterface)`: whether a type satisfies
the `error` interface (server.go makeOutType / call). Structural types
without methods do not; the `error` interface itself does; opaque named
types carry the answer. -/
def GoType.implementsError : GoType → Bool
  | .tError => true
  | .tOpaque _ b => b
  | _ => false

mutual
/-- Type identity, as decided by `reflect` (`param.Type() != p.inType`
in server.go `method.call`): structural on our type representation. -/
def GoType.teq : GoType → GoType → Bool
  | .tInt, .tInt => true
  | .tBool, .tBool => true
  | .tString, .tString => true
  | .tStruct fs, .tStruct gs => teqFields fs gs
  | .tSlice a, .tSlice b => GoType.teq a b
  | .tMap a, .tMap b => GoType.teq a b
  | .tPtr a, .tPtr b => GoType.teq a b
  | .tIface, .tIface => true
  | .tError, .tError => true
  | .tOpaque n a, .tOpaque m b => n == m && a == b
  | _, _ => false

/-- Field-list component of `GoType.teq`. -/
def teqFields : List (String × GoType) → List (String × GoType) → Bool
  | [], [] => true
  | (n, t) :: fs, (m, u) :: gs => n == m && GoType.teq t u && teqFields fs gs
  | _, _ => false
end

/-- A Go value of some `GoType`, as far as the invoker observes it.
`vPtr none` is a nil pointer; `vIface` is an `interface{}` value holding
a decoded generic JSON value (`none` = nil interface); `vOpaque` is the
zero value of an opaque named type. -/
inductive GoVal where
  | vInt (n : Int)
  | vBool (b : Bool)
  | vString (s : String)
  | vStruct (fields : List (String × GoVal))
  | vSlice (elems : List GoVal)
  | vMap (entries : List (String × GoVal))
  | vPtr (v : Option GoVal)
  | vIface (v : Option Json)
  | vOpaque (name : String)

mutual
/-- The zero value of a Go type (`reflect.New(t).Elem()`): the fresh
destination into which `json.Unmarshal` decodes. -/
def GoType.zeroVal : GoType → GoVal
  | .tInt => .vInt 0
  | .tBool => .vBool false
  | .tString => .vString ""
  | .tStruct fs => .vStruct (zeroFields fs)
  | .tSlice _ => .vSlice []
  | .tMap _ => .vMap []
  | .tPtr _ => .vPtr none
  | .tIface => .vIface none
  | .tError => .vIface none
  | .tOpaque n _ => .vOpaque n

/-- Field-list component of `GoType.zeroVal`. -/
def zeroFields : List (String × GoType) → List (String × GoVal)
  | [] => []
  | (n, t) :: fs => (n, t.zeroVal) :: zeroFields fs
end

/-- Go's case-insensitive match of a JSON object key against a struct
field name (encoding/json field matching), character by character. -/
def keyMatch (jsonKey fieldName : String) : Bool :=
  jsonKey.data.map Char.toLower == fieldName.data.map Char.toLower

/-- The JSON object entry feeding a struct field: encoding/json decodes
entries in order with later duplicates overwriting, so the last matching
entry wins. -/
def lookupEntry (fieldName : String) (kvs : List (String × Json)) : Option Json :=
  match kvs with
  | [] => none
  | (k, j) :: rest =>
    match lookupEntry fieldName rest with
    | some j' => some j'
    | none => if keyMatch k fieldName then some j else none

mutual
/-- `json.Unmarshal(data, reflect.New(t).Interface())`, at tree level:
decode a JSON value into a fresh value of Go type `t`. Faithful to
encoding/json on this type fragment: JSON null is accepted by every type
and leaves the fresh destination at its zero value (for pointers, nil);
object keys match struct fields case-insensitively, unknown keys are
ignored and missing fields stay zero; a structural mismatch is an error.
Error strings stand in for Go's diagnostic messages; no verified
property depends on their exact text except the nil-params message,
which is produced before this function is reached. -/
def decodeJson : GoType → Json → Except String GoVal
  | t, .null => .ok t.zeroVal
  | .tInt, .num n => .ok (.vInt n)
  | .tBool, .bool b => .ok (.vBool b)
  | .tString, .str s => .ok (.vString s)
  | .tStruct fs, .obj kvs => do
    let vs ← decodeFields fs kvs
    .ok (.vStruct vs)
  | .tSlice t, .arr xs => do
    let vs ← decodeElems t xs
    .ok (.vSlice vs)
  | .tMap t, .obj kvs => do
    let vs ← decodeEntries t kvs
    .ok (.vMap vs)
  | .tPtr t, j => do
    let v ← decodeJson t j
    .ok (.vPtr (some v))
  | .tIface, j => .ok (.vIface (some j))
  | _, _ => .error "json: cannot unmarshal value into Go value"
termination_by t j => (sizeOf t, sizeOf j)

/-- Struct component of `decodeJson`: each declared field takes the last
matching object entry, or stays at its zero value. -/
def decodeFields : List (String × GoType) → List (String × Json) → Except String (List (String × GoVal))
  | [], _ => .ok []
  | (n, t) :: fs, kvs =>
    match lookupEntry n kvs with
    | none => do
      let vs ← decodeFields fs kvs
      .ok ((n, t.zeroVal) :: vs)
    | some j => do
      let v ← decodeJson t j
      let vs ← decodeFields fs kvs
      .ok ((n, v) :: vs)
termination_by fs kvs => (sizeOf fs, sizeOf kvs)

/-- Slice component of `decodeJson`. -/
def decodeElems : GoType → List Json → Except String (List GoVal)
  | _, [] => .ok []
  | t, j :: js => do
    let v ← decodeJson t j
    let vs ← decodeElems t js
    .ok (v :: vs)
termination_by t xs => (sizeOf t, sizeOf xs)

/-- Map component of `decodeJson` (string-keyed maps). -/
def decodeEntries : GoType → List (String × Json) → Except String (List (String × GoVal))
  | _, [] => .ok []
  | t, (k, j) :: kvs => do
    let v ← decodeJson t j
    let vs ← decodeEntries t kvs
    .ok ((k, v) :: vs)
termination_by t kvs => (sizeOf t, sizeOf kvs)
end

/-! ## The method invoker (server.go) -/

/-- A decoded parameter paired with its dynamic type: `reflect.Value`
as produced by `Request.unmarshalParam` and consumed by `method.call`. -/
structure TypedVal where
  type : GoType
  val : GoVal

/-- `Request.unmarshalParam` (codec.go lines 32-48): parses `Params`
into the registered input type. Go first rejects a nil `inType`; our
`GoType` is not nullable, and the invoker only ever passes the type
captured at registration, which `reflect` never yields as nil. Then a
nil `params` is rejected, else the raw value is unmarshalled into a
fresh value of the input type. -/
def Request.unmarshalParam (r : Request) (inType : GoType) : Except String TypedVal :=
  match r.params with
  | none => .error "params should not be nil"
  | some j =>
    match decodeJson inType j with
    | .error e => .error e
    | .ok v => .ok { type := inType, val := v }

/-- The first return value of a bound function, abstracted by exactly
what `Response.marshalResult` observes of the `any` value: a Go nil
interface (`ret == nil`), a value on which `json.Marshal` fails with a
message, or a value that marshals to the JSON tree `j`. -/
inductive RetVal where
  | nilIface
  | unmarshalable (msg : String)
  | value (j : Json)

/-- What one invocation of the bound function does, as observed through
`reflect.Value.Call`: either an abrupt internal fault (a Go panic with a
rendered message), or a normal return of (ret, err). Lean functions are
total, so the fault case is an explicit constructor; `method.call`
consumes it exactly where Go's `recover()` does. -/
inductive FuncOutcome where
  | panics (msg : String)
  | returns (ret : RetVal) (err : Option String)

/-- The `method` record (server.go lines 105-109): the bound function
and its captured input/output types. The function field is the semantic
behaviour of `p.function.Call` on a value of the input type. -/
structure Method where
  inType : GoType
  outType : GoType
  function : GoVal → FuncOutcome

/-- A candidate value passed to `Register`/`newMethod` (`f any`): the
nil interface, some non-function value, or a function with its declared
parameter types, return types and behaviour. -/
inductive FuncCandidate where
  | nilCand
  | nonFunc
  | fn (ins : List GoType) (outs : List GoType) (behaviour : GoVal → FuncOutcome)

/-- `method.makeFunction` (server.go lines 132-146): rejects the nil
interface and non-function values; accepts any function value. -/
def makeFunction : FuncCandidate → Except String (List GoType × List GoType × (GoVal → FuncOutcome))
  | .nilCand => .error "nil function"
  | .nonFunc => .error "not a Func"
  | .fn ins outs behaviour => .ok (ins, outs, behaviour)

/-- `method.makeInType` (server.go lines 150-160): exactly one declared
parameter, whose type is captured. -/
def makeInType (ins : List GoType) : Except String GoType :=
  match ins with
  | [a] => .ok a
  | _ => .error "exactly 1 parameter expected"

/-- `method.makeOutType` (server.go lines 164-178): exactly two declared
return values, the second implementing `error`; the first return type is
captured. -/
def makeOutType (outs : List GoType) : Except String GoType :=
  match outs with
  | [o0, o1] =>
    if o1.implementsError then .ok o0
    else .error "the 2nd return value should be an error"
  | _ => .error "exactly 2 return value (ret, err) expected"

/-- `newMethod` (server.go lines 115-127): makeFunction + makeInType +
makeOutType, failing on the first violation. -/
def newMethod (f : FuncCandidate) : Except String Method :=
  match makeFunction f with
  | .error e => .error e
  | .ok (ins, outs, behaviour) =>
    match makeInType ins with
    | .error e => .error e
    | .ok inType =>
      match makeOutType outs with
      | .error e => .error e
      | .ok outType => .ok { inType := inType, outType := outType, function := behaviour }

/-- `method.call` (server.go lines 195-223): rejects a parameter whose
dynamic type differs from the registered input type; a panic inside the
function is recovered and turned into an error return; a non-nil error
return yields (nil, err); otherwise the success value passes through.
(The reflect-level re-checks on `out` — length 2 and `error`-typed second
value — are guaranteed by the registered function's declared shape, which
`FuncOutcome.returns` carries by construction.) -/
def Method.call (m : Method) (param : TypedVal) : RetVal × Option String :=
  if !(param.type.teq m.inType) then (.nilIface, some "param type mismatch")
  else
    match m.function param.val with
    | .panics r => (.nilIface, some ("panic: " ++ r))
    | .returns ret err =>
      match err with
      | some e => (.nilIface, some e)
      | none => (ret, none)

/-- `Response.marshalResult` (codec.go lines 82-93): a nil result is a
no-op (the Result field stays unset); a marshal failure is reported and
leaves the response unchanged; otherwise the marshalled bytes fill
`result`. Returns the updated response and the error, mirroring Go's
in-place mutation plus error return. -/
def Response.marshalResult (r : Response) (result : RetVal) : Response × Option String :=
  match result with
  | .nilIface => (r, none)
  | .unmarshalable msg => (r, some msg)
  | .value j => ({ r with result := some j }, none)

/-- `method.serveRequest` (server.go lines 226-259): guard a nil request,
decode params (InvalidParams on failure), call (code -1 wrapping of a
functional error), marshal the success value (InternalError on failure).
The request pointer is `Option Request`, `none` being Go `nil`. -/
def Method.serveRequest (m : Method) (req : Option Request) : Response :=
  match req with
  | none => errorResponse none (ErrInvalidRequest.withReason "nil request")
  | some req =>
    let res : Response := { jsonRpc := JsonRpc2, result := none, error := none, id := req.id }
    match req.unmarshalParam m.inType with
    | .error e => { res with error := some (ErrInvalidParams.withReason e) }
    | .ok param =>
      match m.call param with
      | (_, some e) => { res with error := some { code := -1, message := e, data := none } }
      | (ret, none) =>
        match res.marshalResult ret with
        | (_, some e) => { res with result := none, error := some (ErrInternalError.withReason e) }
        | (res', none) => res'

/-! ## The server dispatcher (server.go) -/

/-- The `server` struct (server.go lines 35-40): the name-to-method
registry (a map, modelled as an association list looked up by key) and
the optional at-most-once dedup set (`*sync.Map` used as a set of ids;
`none` = disabled). The `sync.RWMutex` serialises accesses; our model is
the sequentialised behaviour it guarantees. -/
structure Server where
  methods : List (String × Method)
  atMostOnce : Option (List Int)

/-- `NewServer` (server.go lines 43-47). -/
def NewServer : Server :=
  { methods := [], atMostOnce := none }

/-- `server.WithAtMostOnce` (server.go lines 50-53): installs a fresh
dedup set. -/
def Server.WithAtMostOnce (s : Server) : Server :=
  { s with atMostOnce := some [] }

/-- `server.Register` (server.go lines 56-71): rejects a name already in
the registry, then builds the method (`newMethod`), then inserts it.
Returns the updated server and the error (Go mutates the receiver and
returns `error`; a failure leaves the registry untouched). -/
def Server.Register (s : Server) (name : String) (f : FuncCandidate) : Server × Option String :=
  if (s.methods.lookup name).isSome then
    (s, some ("multiple registrations for " ++ name))
  else
    match newMethod f with
    | .error e => (s, some e)
    | .ok m => ({ s with methods := (name, m) :: s.methods }, none)

/-- `server.ServeRPC` (server.go lines 73-102): look the method up (a
missing method yields MethodNotFound); with at-most-once enabled and an
id present, atomically check-and-mark the id (`sync.Map.LoadOrStore`),
deflecting a duplicate with the AtMostOnce error; otherwise forward to
the invoker's `serveRequest`. Returns the response, the updated server,
and whether the request was dispatched to the invoker (true exactly on
the `m.serveRequest(req)` path). The `Verbose` logging is modelled off
(it is documented as a side effect only, never affecting control flow). -/
def Server.ServeRPC (s : Server) (req : Request) : Response × Server × Bool :=
  match s.methods.lookup req.method with
  | none => (errorResponse req.id ErrMethodNotFound, s, false)
  | some m =>
    match s.atMostOnce, req.id with
    | some seen, some i =>
      if i ∈ seen then
        (errorResponse req.id ErrAtMostOnce, s, false)
      else
        (m.serveRequest (some req), { s with atMostOnce := some (i :: seen) }, true)
    | some _, none => (m.serveRequest (some req), s, true)
    | none, _ => (m.serveRequest (some req), s, true)

/-- A sequence of `ServeRPC` calls, threading the server state; returns
each call's (response, dispatched) pair and the final state. -/
def Server.serveAll (s : Server) : List Request → List (Response × Bool) × Server
  | [] => ([], s)
  | r :: rs =>
    let step := s.ServeRPC r
    let rest := step.2.1.serveAll rs
    ((step.1, step.2.2) :: rest.1, rest.2)

/-! ## Wire encoding of the records (codec.go marshal / unmarshal)

`Request.marshal`/`toJSON` and `Response.marshal` are `json.Marshal` of
the annotated structs; `unmarshalRequest`/`unmarshalResponse` are
`json.Unmarshal` into a fresh record. We model both at the JSON-tree
level. For marshalling: every field is emitted in declaration order
under its wire key; a nil `params` RawMessage marshals as a JSON null
(it has no `omitempty`), while `result`/`error`/`data` carry `omitempty`
and are omitted when nil. For unmarshalling: keys are matched
case-insensitively, unknown keys are ignored, untouched fields keep
their zero values, a JSON null leaves a fresh field at its zero value —
except for `json.RawMessage` fields, whose `UnmarshalJSON` copies the
raw bytes verbatim, so a JSON null yields the non-nil bytes `null`. -/

/-- `Request.toJSON` / `Request.marshal` (codec.go lines 63-71), at tree
level. -/
def Request.toJsonTree (r : Request) : Json :=
  .obj [("jsonrpc", .str r.jsonRpc),
        ("method", .str r.method),
        ("params", match r.params with | none => .null | some j => j),
        ("id", match r.id with | none => .null | some i => .num i)]

/-- `Error` marshalling (its `json` tags in codec.go lines 132-136), at
tree level; `data` is omitted when nil. -/
def ErrorObj.toJsonTree (e : ErrorObj) : Json :=
  .obj ([("code", .num e.code), ("message", .str e.message)] ++
        (match e.data with | none => [] | some j => [("data", j)]))

/-- `Response.marshal` (codec.go lines 97-99), at tree level; `result`
and `error` are omitted when nil. -/
def Response.toJsonTree (r : Response) : Json :=
  .obj ([("jsonrpc", .str r.jsonRpc)] ++
        (match r.result with | none => [] | some j => [("result", j)]) ++
        (match r.error with | none => [] | some e => [("error", e.toJsonTree)]) ++
        [("id", match r.id with | none => .null | some i => .num i)])

/-- One step of `json.Unmarshal` into a `Request`: route an object entry
to the field whose wire key matches. The `params` field is a
`json.RawMessage`: its `UnmarshalJSON` copies the raw value whatever it
is, a JSON null included. -/
def Request.setField (acc : Request) (k : String) (v : Json) : Except String Request :=
  match keyMatch k "jsonrpc", keyMatch k "method", keyMatch k "params", keyMatch k "id" with
  | true, _, _, _ =>
    match v with
    | .null => .ok acc
    | .str s => .ok { acc with jsonRpc := s }
    | _ => .error "json: cannot unmarshal value into Go string"
  | false, true, _, _ =>
    match v with
    | .null => .ok acc
    | .str s => .ok { acc with method := s }
    | _ => .error "json: cannot unmarshal value into Go string"
  | false, false, true, _ =>
    .ok { acc with params := some v }
  | false, false, false, true =>
    match v with
    | .null => .ok { acc with id := none }
    | .num n => .ok { acc with id := some n }
    | _ => .error "json: cannot unmarshal value into Go int64"
  | false, false, false, false =>
    .ok acc

/-- Fold of `Request.setField` over an object's entries in order. -/
def Request.setFields (acc : Request) : List (String × Json) → Except String Request
  | [] => .ok acc
  | (k, v) :: kvs =>
    match acc.setField k v with
    | .error e => .error e
    | .ok acc' => acc'.setFields kvs

/-- `unmarshalRequest` (codec.go lines 23-25), at tree level: decode a
JSON value into a fresh `Request`. -/
def unmarshalRequestTree (j : Json) : Except String Request :=
  match j with
  | .null => .ok { jsonRpc := "", method := "", params := none, id := none }
  | .obj kvs => Request.setFields { jsonRpc := "", method := "", params := none, id := none } kvs
  | _ => .error "json: cannot unmarshal value into Go Request"

/-- One step of `json.Unmarshal` into an `Error`: `data` is a
`json.RawMessage`, copied verbatim. -/
def ErrorObj.setField (acc : ErrorObj) (k : String) (v : Json) : Except String ErrorObj :=
  match keyMatch k "code", keyMatch k "message", keyMatch k "data" with
  | true, _, _ =>
    match v with
    | .null => .ok acc
    | .num n => .ok { acc with code := n }
    | _ => .error "json: cannot unmarshal value into Go int"
  | false, true, _ =>
    match v with
    | .null => .ok acc
    | .str s => .ok { acc with message := s }
    | _ => .error "json: cannot unmarshal value into Go string"
  | false, false, true =>
    .ok { acc with data := some v }
  | false, false, false =>
    .ok acc

/-- Fold of `ErrorObj.setField` over an object's entries in order. -/
def ErrorObj.setFields (acc : ErrorObj) : List (String × Json) → Except String ErrorObj
  | [] => .ok acc
  | (k, v) :: kvs =>
    match acc.setField k v with
    | .error e => .error e
    | .ok acc' => acc'.setFields kvs

/-- Decoding a JSON value into a fresh `*Error` (the `error` field of a
response): null yields a nil pointer, an object decodes the record. -/
def unmarshalErrorTree (j : Json) : Except String (Option ErrorObj) :=
  match j with
  | .null => .ok none
  | .obj kvs =>
    match ErrorObj.setFields { code := 0, message := "", data := none } kvs with
    | .error e => .error e
    | .ok e => .ok (some e)
  | _ => .error "json: cannot unmarshal value into Go Error"

/-- One step of `json.Unmarshal` into a `Response`: `result` is a
`json.RawMessage` (copied verbatim), `error` a `*Error`. -/
def Response.setField (acc : Response) (k : String) (v : Json) : Except String Response :=
  match keyMatch k "jsonrpc", keyMatch k "result", keyMatch k "error", keyMatch k "id" with
  | true, _, _, _ =>
    match v with
    | .null => .ok acc
    | .str s => .ok { acc with jsonRpc := s }
    | _ => .error "json: cannot unmarshal value into Go string"
  | false, true, _, _ =>
    .ok { acc with result := some v }
  | false, false, true, _ =>
    match unmarshalErrorTree v with
    | .error e => .error e
    | .ok e => .ok { acc with error := e }
  | false, false, false, true =>
    match v with
    | .null => .ok { acc with id := none }
    | .num n => .ok { acc with id := some n }
    | _ => .error "json: cannot unmarshal value into Go int64"
  | false, false, false, false =>
    .ok acc

/-- Fold of `Response.setField` over an object's entries in order. -/
def Response.setFields (acc : Response) : List (String × Json) → Except String Response
  | [] => .ok acc
  | (k, v) :: kvs =>
    match acc.setField k v with
    | .error e => .error e
    | .ok acc' => acc'.setFields kvs

/-- `unmarshalResponse` (codec.go lines 118-120), at tree level. -/
def unmarshalResponseTree (j : Json) : Except String Response :=
  match j with
  | .null => .ok { jsonRpc := "", result := none, error := none, id := none }
  | .obj kvs => Response.setFields { jsonRpc := "", result := none, error := none, id := none } kvs
  | _ => .error "json: cannot unmarshal value into Go Response"

/-! ## The client (client.go) -/

/-- The `client` struct (client.go lines 158-161): the transport and a
per-instance `atomic.Int64` id counter. The counter field is zero-valued
at construction (`NewClient` does not set it). -/
structure ClientState where
  nextId : Int

/-- `NewClient` (client.go lines 163-167): the `nextId` field is left at
its zero value. (The transport is abstracted away: it receives the built
request and plays no part in id generation.) -/
def NewClient : ClientState :=
  { nextId := 0 }

/-- `atomic.Int64.Add` wraps in two's complement: normalise into
[-2^63, 2^63). -/
def int64wrap (n : Int) : Int :=
  (n + 2 ^ 63) % 2 ^ 64 - 2 ^ 63

/-- The argument of a `client.Call`, abstracted by what the client
observes: Go nil, a value on which `json.Marshal` fails, or a value
marshalling to the JSON tree `j`. -/
inductive ArgVal where
  | nilArg
  | badArg (msg : String)
  | goodArg (j : Json)

/-- `client.Call` (client.go lines 169-192) up to the hand-off to the
transport: reject a nil argument, marshal it, obtain a fresh id from the
atomic counter (`c.nextId.Add(1)`), build the request, validate it.
Returns the updated client and either the request given to
`SendAndReceive` or the error returned early. What the transport and the
response unpacking do afterwards never touches the counter. -/
def ClientState.CallBuildRequest (c : ClientState) (method : String) (arg : ArgVal) :
    ClientState × Except String Request :=
  match arg with
  | .nilArg => (c, .error "arg is nil")
  | .badArg msg => (c, .error msg)
  | .goodArg j =>
    let id := int64wrap (c.nextId + 1)
    let c' : ClientState := { nextId := id }
    let req : Request := { jsonRpc := JsonRpc2, method := method, params := some j, id := some id }
    match req.validate with
    | some e => (c', .error e)
    | none => (c', .ok req)

/-- `n` successive `client.Call` invocations with a valid argument on one
client instance: the requests built, and the final counter state. -/
def ClientState.callSeq (c : ClientState) : Nat → List (Except String Request) × ClientState
  | 0 => ([], c)
  | n + 1 =>
    let step := c.CallBuildRequest "m" (.goodArg (.num 0))
    let rest := step.1.callSeq n
    (step.2 :: rest.1, rest.2)

/-! ## Helper lemmas -/

mutual
/-- `reflect` type identity is reflexive. -/
theorem GoType.teq_refl : ∀ (t : GoType), t.teq t = true
  | .tInt => by simp [GoType.teq]
  | .tBool => by simp [GoType.teq]
  | .tString => by simp [GoType.teq]
  | .tStruct fs => by simp [GoType.teq, teqFields_refl fs]
  | .tSlice a => by simp [GoType.teq, GoType.teq_refl a]
  | .tMap a => by simp [GoType.teq, GoType.teq_refl a]
  | .tPtr a => by simp [GoType.teq, GoType.teq_refl a]
  | .tIface => by simp [GoType.teq]
  | .tError => by simp [GoType.teq]
  | .tOpaque n a => by simp [GoType.teq]

/-- Field-list component of `GoType.teq_refl`. -/
theorem teqFields_refl : ∀ (fs : List (String × GoType)), teqFields fs fs = true
  | [] => by simp [teqFields]
  | (n, t) :: fs => by simp [teqFields, GoType.teq_refl t, teqFields_refl fs]
end

/-- A successfully decoded parameter carries the registered input type
(`reflect.New(inType).Elem()` has exactly that type). -/
theorem Request.unmarshalParam_type {r : Request} {t : GoType} {tv : TypedVal}
    (h : r.unmarshalParam t = .ok tv) : tv.type = t := by
  rcases hp : r.params with _ | j <;> simp [Request.unmarshalParam, hp] at h
  rcases hd : decodeJson t j with e | v <;> simp [hd] at h
  simp [← h]

/-- `method.call` on a parameter of the registered input type: the
type-identity guard passes and the function's outcome decides the rest. -/
theorem Method.call_matching (m : Method) (tv : TypedVal) (ht : tv.type = m.inType) :
    m.call tv =
      match m.function tv.val with
      | .panics r => (.nilIface, some ("panic: " ++ r))
      | .returns ret err =>
        match err with
        | some e => (.nilIface, some e)
        | none => (ret, none) := by
  simp [Method.call, ht, GoType.teq_refl]

/-! ## Claim C2: exactly one of result / error -/

/-- The concrete refuting method for claim C2: a registrable function
(one `any` argument, `(any, error)` returns) which returns a Go nil
interface as its success value with a nil error — for instance
`func(a any) (any, error) { return nil, nil }`. -/
def nilRetMethod : Method :=
  { inType := .tIface, outType := .tIface, function := fun _ => .returns .nilIface none }

/-- The concrete request fed to `nilRetMethod`: well-formed, with params
`1` (which decodes into an `any` parameter). -/
def nilRetRequest : Request :=
  { jsonRpc := JsonRpc2, method := "f", params := some (.num 1), id := some 1 }

/-- C2, counterexample: `nilRetMethod` is accepted by registration-time
validation, yet `serveRequest` on a well-formed request produces a
Response with NEITHER result nor error set — the function returns a nil
interface with a nil error, `call` passes `(nil, nil)` through, and
`marshalResult` is a no-op on a nil result (codec.go line 83), so the
claimed "never neither" fails. (`Response.validate` later rejects this
response at the transport boundary.) -/
theorem serveRequest_neither_result_nor_error_cex :
    newMethod (.fn [.tIface] [.tIface, .tError] nilRetMethod.function) = .ok nilRetMethod ∧
    (nilRetMethod.serveRequest (some nilRetRequest)).result = none ∧
    (nilRetMethod.serveRequest (some nilRetRequest)).error = none := by
  refine ⟨rfl, ?_, ?_⟩ <;>
    simp [Method.serveRequest, Request.unmarshalParam, nilRetRequest, nilRetMethod,
      decodeJson, Method.call, GoType.teq, Response.marshalResult]

/-- C2, amended: every Response produced by `serveRequest` has at most
one of result/error set — never both — and has exactly one unless the
registered function returned a Go nil interface as its success value
together with a nil error, in which case neither is set. -/
theorem serveRequest_at_most_one_of_result_error (m : Method) (req : Option Request) :
    ¬((m.serveRequest req).result.isSome ∧ (m.serveRequest req).error.isSome) ∧
    ((m.serveRequest req).result = none ∧ (m.serveRequest req).error = none →
      ∃ r param, req = some r ∧ r.unmarshalParam m.inType = .ok param ∧
        m.call param = (.nilIface, none)) := by
  cases req with
  | none => simp [Method.serveRequest, errorResponse]
  | some r =>
    cases hu : r.unmarshalParam m.inType with
    | error e => simp [Method.serveRequest, hu]
    | ok param =>
      rcases hc : m.call param with ⟨ret, err⟩
      cases err with
      | some e => simp [Method.serveRequest, hu, hc]
      | none =>
        cases ret with
        | nilIface =>
          exact ⟨by simp [Method.serveRequest, hu, hc, Response.marshalResult],
            fun _ => ⟨r, param, rfl, hu, hc⟩⟩
        | unmarshalable msg =>
          simp [Method.serveRequest, hu, hc, Response.marshalResult]
        | value j =>
          simp [Method.serveRequest, hu, hc, Response.marshalResult]

/-- C2, witness for the amended theorem, at the concrete refuting
instance (where the "neither" escape hatch is actually taken). -/
theorem serveRequest_at_most_one_of_result_error_witness :
    ¬((nilRetMethod.serveRequest (some nilRetRequest)).result.isSome ∧
        (nilRetMethod.serveRequest (some nilRetRequest)).error.isSome) ∧
    ((nilRetMethod.serveRequest (some nilRetRequest)).result = none ∧
        (nilRetMethod.serveRequest (some nilRetRequest)).error = none →
      ∃ r param, (some nilRetRequest : Option Request) = some r ∧
        r.unmarshalParam nilRetMethod.inType = .ok param ∧
        nilRetMethod.call param = (.nilIface, none)) :=
  serveRequest_at_most_one_of_result_error nilRetMethod (some nilRetRequest)

/-! ## Claim C3: registration-time shape validation -/

/-- C3: `newMethod f` succeeds if and only if `f` is a (non-nil)
function with exactly one declared parameter and exactly two declared
return values whose second implements `error`; and on success the
captured `inType`/`outType` are exactly the declared parameter type and
first return type (and the bound function is the candidate's). Every
other shape — nil, a non-function value, zero parameters, more than one
parameter, wrong return arity, a second return not implementing `error`
— fails. -/
theorem newMethod_shape_iff (f : FuncCandidate) :
    ((∃ m, newMethod f = .ok m) ↔
      ∃ a o0 o1 behaviour, f = .fn [a] [o0, o1] behaviour ∧ o1.implementsError = true) ∧
    (∀ m, newMethod f = .ok m →
      ∃ a o0 o1 behaviour, f = .fn [a] [o0, o1] behaviour ∧ o1.implementsError = true ∧
        m = { inType := a, outType := o0, function := behaviour }) := by
  cases f with
  | nilCand => simp [newMethod, makeFunction]
  | nonFunc => simp [newMethod, makeFunction]
  | fn ins outs behaviour =>
    rcases ins with _ | ⟨a, _ | ⟨a2, ins⟩⟩
    · simp [newMethod, makeFunction, makeInType]
    · rcases outs with _ | ⟨o0, _ | ⟨o1, _ | ⟨o2, outs⟩⟩⟩
      · simp [newMethod, makeFunction, makeInType, makeOutType]
      · simp [newMethod, makeFunction, makeInType, makeOutType]
      · by_cases h : o1.implementsError
        · simp [newMethod, makeFunction, makeInType, makeOutType, h]
          exact ⟨⟨a, o0, o1, ⟨rfl, rfl, rfl⟩, h⟩,
            a, o0, o1, behaviour, ⟨rfl, ⟨rfl, rfl⟩, rfl⟩, h, rfl, rfl, rfl⟩
        · simp [newMethod, makeFunction, makeInType, makeOutType, h]
      · simp [newMethod, makeFunction, makeInType, makeOutType]
    · simp [newMethod, makeFunction, makeInType]

/-- C3, witness: a valid single-argument `(value, error)` function
registers with the declared types captured, instantiating the theorem at
a concrete candidate. -/
theorem newMethod_shape_iff_witness :
    ∃ m, newMethod (.fn [.tPtr (.tStruct [("A", .tInt)])] [.tPtr (.tStruct [("B", .tString)]), .tError]
      (fun _ => .returns .nilIface none)) = .ok m :=
  (newMethod_shape_iff (.fn [.tPtr (.tStruct [("A", .tInt)])] [.tPtr (.tStruct [("B", .tString)]), .tError]
      (fun _ => .returns .nilIface none))).1.mpr
    ⟨_, _, _, _, rfl, rfl⟩

/-! ## Claim C4: absent params always rejected, present empty params accepted -/

/-- Struct decoding from an empty JSON object: every declared field
keeps its zero value (there is no entry to match), with no error — even
for zero-field structs. -/
theorem decodeFields_nil : ∀ (fs : List (String × GoType)), decodeFields fs [] = .ok (zeroFields fs)
  | [] => by simp [decodeFields, zeroFields]
  | (n, t) :: fs => by
    simp [decodeFields, lookupEntry, zeroFields, decodeFields_nil fs, Bind.bind, Except.bind]

/-- C4: a request with absent (`nil`) `params` is answered by an
InvalidParams error Response whatever the registered input shape — the
nil check precedes any shape inspection, so even a zero-field struct
shape rejects it — while a present but structurally empty value matching
the registered shape decodes successfully: `{}` into any struct shape
(its fields staying zero) or any map shape, `[]` into any slice shape. -/
theorem unmarshalParam_nil_and_empty :
    (∀ (m : Method) (r : Request), r.params = none →
      m.serveRequest (some r) =
        { jsonRpc := JsonRpc2, result := none,
          error := some (ErrInvalidParams.withReason "params should not be nil"), id := r.id }) ∧
    (∀ (fs : List (String × GoType)) (r : Request), r.params = some (.obj []) →
      r.unmarshalParam (.tStruct fs) = .ok { type := .tStruct fs, val := .vStruct (zeroFields fs) }) ∧
    (∀ (t : GoType) (r : Request), r.params = some (.arr []) →
      r.unmarshalParam (.tSlice t) = .ok { type := .tSlice t, val := .vSlice [] }) ∧
    (∀ (t : GoType) (r : Request), r.params = some (.obj []) →
      r.unmarshalParam (.tMap t) = .ok { type := .tMap t, val := .vMap [] }) := by
  refine ⟨fun m r hp => ?_, fun fs r hp => ?_, fun t r hp => ?_, fun t r hp => ?_⟩
  · simp [Method.serveRequest, Request.unmarshalParam, hp]
  · simp [Request.unmarshalParam, hp, decodeJson, decodeFields_nil, Bind.bind, Except.bind]
  · simp [Request.unmarshalParam, hp, decodeJson, decodeElems, Bind.bind, Except.bind]
  · simp [Request.unmarshalParam, hp, decodeJson, decodeEntries, Bind.bind, Except.bind]

/-- C4, witness: instantiated at a zero-field struct shape — nil params
rejected, empty-object params accepted. -/
theorem unmarshalParam_nil_and_empty_witness :
    ({ inType := .tStruct [], outType := .tInt, function := fun _ => .returns (.value (.num 0)) none :
        Method }).serveRequest
        (some { jsonRpc := JsonRpc2, method := "f", params := none, id := some 7 }) =
      { jsonRpc := JsonRpc2, result := none,
        error := some (ErrInvalidParams.withReason "params should not be nil"), id := some 7 } ∧
    ({ jsonRpc := JsonRpc2, method := "f", params := some (.obj []), id := some 7 } :
        Request).unmarshalParam (.tStruct []) =
      .ok { type := .tStruct [], val := .vStruct (zeroFields []) } :=
  ⟨unmarshalParam_nil_and_empty.1 _ _ rfl,
   unmarshalParam_nil_and_empty.2.1 [] _ rfl⟩

/-! ## Claim C5: faults inside the function are recovered -/

/-- C5: when the registered function raises an internal fault (a Go
panic) on the decoded parameter, `serveRequest` still returns a
fully-formed Response: no result, and a non-nil error wrapping the
recovered fault (`method.call`'s deferred `recover`, code -1 with the
"panic: ..." message). The fault never escapes the invoker: the model's
`call` is total and consumes the `panics` outcome exactly where the
deferred `recover()` does. -/
theorem serveRequest_recovers_fault (m : Method) (r : Request) (param : TypedVal) (msg : String)
    (hu : r.unmarshalParam m.inType = .ok param)
    (hp : m.function param.val = .panics msg) :
    m.serveRequest (some r) =
      { jsonRpc := JsonRpc2, result := none,
        error := some { code := -1, message := "panic: " ++ msg, data := none }, id := r.id } := by
  have hc := Method.call_matching m param (Request.unmarshalParam_type hu)
  simp only [hp] at hc
  simp [Method.serveRequest, hu, hc]

/-- C5, witness: a concrete panicking method (`func(a int) (int, error)
{ panic("boom") }`) served with params `2`. -/
theorem serveRequest_recovers_fault_witness :
    ({ jsonRpc := JsonRpc2, method := "f", params := some (.num 2), id := some 3 } :
        Request).unmarshalParam .tInt = .ok { type := .tInt, val := .vInt 2 } ∧
    ({ inType := .tInt, outType := .tInt, function := fun _ => .panics "boom" :
        Method }).serveRequest
        (some { jsonRpc := JsonRpc2, method := "f", params := some (.num 2), id := some 3 }) =
      { jsonRpc := JsonRpc2, result := none,
        error := some { code := -1, message := "panic: " ++ "boom", data := none }, id := some 3 } := by
  have hu : ({ jsonRpc := JsonRpc2, method := "f", params := some (.num 2), id := some 3 } :
      Request).unmarshalParam .tInt = .ok { type := .tInt, val := .vInt 2 } := by
    simp [Request.unmarshalParam, decodeJson]
  exact ⟨hu, serveRequest_recovers_fault _ _ _ _ hu rfl⟩

/-! ## Claim C6: Register failures leave the registry unchanged -/

/-- C6: `Register` fails exactly when the name is already bound (the
registry is returned untouched, with the "multiple registrations"
error) or when invoker construction (`newMethod`) fails (again leaving
the state untouched); on success it adds exactly the one new entry —
the name becomes bound to the new method, and every other name's
binding is unchanged (in particular no existing entry is ever
replaced). -/
theorem register_failure_frame (s : Server) (name : String) (f : FuncCandidate) :
    ((s.methods.lookup name).isSome →
      s.Register name f = (s, some ("multiple registrations for " ++ name))) ∧
    (∀ e, s.methods.lookup name = none → newMethod f = .error e →
      s.Register name f = (s, some e)) ∧
    (∀ m, s.methods.lookup name = none → newMethod f = .ok m →
      (s.Register name f).2 = none ∧
      (s.Register name f).1.methods = (name, m) :: s.methods ∧
      (s.Register name f).1.atMostOnce = s.atMostOnce ∧
      (s.Register name f).1.methods.lookup name = some m ∧
      ∀ n', n' ≠ name → (s.Register name f).1.methods.lookup n' = s.methods.lookup n') := by
  refine ⟨fun hdup => ?_, fun e hfree herr => ?_, fun m hfree hok => ?_⟩
  · simp [Server.Register, hdup]
  · simp [Server.Register, hfree, herr]
  · have hreg : s.Register name f = ({ s with methods := (name, m) :: s.methods }, none) := by
      simp [Server.Register, hfree, hok]
    rw [hreg]
    refine ⟨rfl, rfl, rfl, by simp [List.lookup], fun n' hne => ?_⟩
    simp [List.lookup, beq_eq_false_iff_ne.mpr hne]

/-- C6, witness: on a fresh server, registering a well-shaped function
adds exactly that binding. -/
theorem register_failure_frame_witness :
    (NewServer.Register "add"
        (.fn [.tInt] [.tInt, .tError] (fun _ => .returns (.value (.num 0)) none))).2 = none ∧
    (NewServer.Register "add"
        (.fn [.tInt] [.tInt, .tError] (fun _ => .returns (.value (.num 0)) none))).1.methods.lookup
        "add" =
      some { inType := .tInt, outType := .tInt, function := fun _ => .returns (.value (.num 0)) none } :=
  ⟨((register_failure_frame NewServer "add"
      (.fn [.tInt] [.tInt, .tError] (fun _ => .returns (.value (.num 0)) none))).2.2 _ rfl rfl).1,
   ((register_failure_frame NewServer "add"
      (.fn [.tInt] [.tInt, .tError] (fun _ => .returns (.value (.num 0)) none))).2.2 _ rfl rfl).2.2.2.1⟩

/-! ## The dispatcher: characterisations of `ServeRPC` -/

/-- `ServeRPC` never changes the registry. -/
theorem Server.ServeRPC_methods (s : Server) (r : Request) :
    ((s.ServeRPC r).2.1).methods = s.methods := by
  unfold Server.ServeRPC
  repeat' split <;> try rfl

/-- An unregistered method name: MethodNotFound, the whole state (dedup
set included) untouched, nothing dispatched. -/
theorem Server.ServeRPC_notFound {s : Server} {r : Request}
    (hm : s.methods.lookup r.method = none) :
    s.ServeRPC r = (errorResponse r.id ErrMethodNotFound, s, false) := by
  simp [Server.ServeRPC, hm]

/-- A registered method, at-most-once enabled, id already seen: the
AtMostOnce deflection, state untouched, nothing dispatched. -/
theorem Server.ServeRPC_dup {s : Server} {seen : List Int} {i : Int} {r : Request} {m : Method}
    (hA : s.atMostOnce = some seen) (hi : i ∈ seen) (hid : r.id = some i)
    (hm : s.methods.lookup r.method = some m) :
    s.ServeRPC r = (errorResponse (some i) ErrAtMostOnce, s, false) := by
  simp [Server.ServeRPC, hm, hA, hid, hi]

/-- A registered method, at-most-once enabled, fresh id: the id is
marked seen and the request is dispatched to the invoker. -/
theorem Server.ServeRPC_fresh {s : Server} {seen : List Int} {i : Int} {r : Request} {m : Method}
    (hA : s.atMostOnce = some seen) (hi : i ∉ seen) (hid : r.id = some i)
    (hm : s.methods.lookup r.method = some m) :
    s.ServeRPC r = (m.serveRequest (some r), { s with atMostOnce := some (i :: seen) }, true) := by
  simp [Server.ServeRPC, hm, hA, hid, hi]

/-- Once an id is in the dedup set, every request carrying it to a
registered method is deflected with AtMostOnce and the state never
changes. -/
theorem Server.serveAll_dup {s : Server} {seen : List Int} {i : Int}
    (hA : s.atMostOnce = some seen) (hi : i ∈ seen) :
    ∀ (reqs : List Request),
      (∀ r ∈ reqs, r.id = some i ∧ (s.methods.lookup r.method).isSome) →
      s.serveAll reqs = (reqs.map (fun _ => (errorResponse (some i) ErrAtMostOnce, false)), s)
  | [], _ => by simp [Server.serveAll]
  | r :: rs, h => by
    obtain ⟨hid, hm⟩ := h r (List.mem_cons_self r rs)
    obtain ⟨m, hm⟩ := Option.isSome_iff_exists.mp hm
    have hstep := Server.ServeRPC_dup hA hi hid hm
    have ih := Server.serveAll_dup hA hi rs (fun x hx => h x (List.mem_cons_of_mem _ hx))
    simp [Server.serveAll, hstep, ih]

/-! ## Claim C1: at-most-once dispatches only the first request per id -/

/-- C1: with at-most-once enabled and an id not yet seen, a sequence of
`ServeRPC` calls whose requests all carry that id and name registered
methods behaves as: the first request — and only the first — is
dispatched to the invoker (and through it the underlying function),
while every later request is answered with the AtMostOnce error
Response and is not dispatched; afterwards the dedup set has gained
exactly that id. -/
theorem atMostOnce_first_dispatch_only (s : Server) (seen : List Int) (i : Int)
    (r0 : Request) (rest : List Request) (m : Method)
    (hA : s.atMostOnce = some seen) (hfresh : i ∉ seen)
    (hm : s.methods.lookup r0.method = some m) (hid : r0.id = some i)
    (hrest : ∀ r ∈ rest, r.id = some i ∧ (s.methods.lookup r.method).isSome) :
    s.serveAll (r0 :: rest) =
      ((m.serveRequest (some r0), true) ::
        rest.map (fun _ => (errorResponse (some i) ErrAtMostOnce, false)),
       { s with atMostOnce := some (i :: seen) }) := by
  have hstep := Server.ServeRPC_fresh hA hfresh hid hm
  have hdup := @Server.serveAll_dup { s with atMostOnce := some (i :: seen) } (i :: seen) i
    rfl (List.mem_cons_self i seen) rest hrest
  simp [Server.serveAll, hstep, hdup]

/-- The shared demonstration method: `func(a int) (int, error)`. -/
def demoMethod : Method :=
  { inType := .tInt, outType := .tInt, function := fun _ => .returns (.value (.num 0)) none }

/-- The shared demonstration server: `demoMethod` registered under "f",
at-most-once enabled, nothing seen yet. -/
def demoServer : Server := { methods := [("f", demoMethod)], atMostOnce := some [] }

/-- C1, witness: two requests with id 1 to the registered method "f" —
the first is dispatched, the second deflected with AtMostOnce. -/
theorem atMostOnce_first_dispatch_only_witness :
    demoServer.serveAll
        [{ jsonRpc := JsonRpc2, method := "f", params := some (.num 2), id := some 1 },
         { jsonRpc := JsonRpc2, method := "f", params := some (.num 2), id := some 1 }] =
      ([(demoMethod.serveRequest
          (some { jsonRpc := JsonRpc2, method := "f", params := some (.num 2), id := some 1 }), true),
        (errorResponse (some 1) ErrAtMostOnce, false)],
       { demoServer with atMostOnce := some [1] }) :=
  atMostOnce_first_dispatch_only demoServer [] 1 _ _ demoMethod rfl (by simp) rfl rfl
    (by intro r hr; simp only [List.mem_singleton] at hr; subst hr; exact ⟨rfl, rfl⟩)

/-! ## Claim C9: the id is recorded before invoking, so failures are not retried -/

/-- C9: with at-most-once enabled, `ServeRPC` marks the request id as
seen before forwarding to the invoker, so even when the first request
carrying the id is answered with an error Response (here a hypothesis:
its response's `error` is set — e.g. invalid params or the function's
own failure), a later request with the same id to a registered method
receives the AtMostOnce deflection and is not dispatched: a failed
execution is never retried for that id. -/
theorem atMostOnce_marks_before_invoke (s : Server) (seen : List Int) (i : Int)
    (r1 r2 : Request) (m1 : Method)
    (hA : s.atMostOnce = some seen) (hfresh : i ∉ seen)
    (hm1 : s.methods.lookup r1.method = some m1) (hid1 : r1.id = some i)
    (herr : ((s.ServeRPC r1).1).error.isSome)
    (hid2 : r2.id = some i) (hm2 : (s.methods.lookup r2.method).isSome) :
    ((s.ServeRPC r1).2.1).ServeRPC r2 =
      (errorResponse (some i) ErrAtMostOnce, (s.ServeRPC r1).2.1, false) := by
  obtain ⟨m2, hm2⟩ := Option.isSome_iff_exists.mp hm2
  have hstep := Server.ServeRPC_fresh hA hfresh hid1 hm1
  rw [hstep]
  exact Server.ServeRPC_dup rfl (List.mem_cons_self i seen) hid2 hm2

/-- C9, witness: the first request has nil params, so its execution
fails with InvalidParams — yet the follow-up request with the same id is
deflected with AtMostOnce, not retried. -/
theorem atMostOnce_marks_before_invoke_witness :
    ((demoServer.ServeRPC
        { jsonRpc := JsonRpc2, method := "f", params := none, id := some 1 }).1).error.isSome ∧
    ((demoServer.ServeRPC
        { jsonRpc := JsonRpc2, method := "f", params := none, id := some 1 }).2.1).ServeRPC
        { jsonRpc := JsonRpc2, method := "f", params := some (.num 2), id := some 1 } =
      (errorResponse (some 1) ErrAtMostOnce,
       (demoServer.ServeRPC
         { jsonRpc := JsonRpc2, method := "f", params := none, id := some 1 }).2.1, false) :=
  ⟨rfl,
   atMostOnce_marks_before_invoke demoServer [] 1 _ _ demoMethod rfl (by simp) rfl rfl rfl rfl rfl⟩

/-! ## Claim C10: MethodNotFound leaves the dedup set unchanged -/

/-- C10: a request naming an unregistered method is answered with
MethodNotFound and the server state — the dedup set included — is left
unchanged even with at-most-once enabled (the check-and-mark runs only
after a successful lookup); hence a later request with the same id
naming a registered method is still dispatched. -/
theorem methodNotFound_leaves_dedup_unchanged (s : Server) (seen : List Int) (i : Int)
    (r1 : Request)
    (hm1 : s.methods.lookup r1.method = none)
    (hA : s.atMostOnce = some seen) (hid1 : r1.id = some i) (hfresh : i ∉ seen) :
    s.ServeRPC r1 = (errorResponse (some i) ErrMethodNotFound, s, false) ∧
    (∀ (r2 : Request) (m2 : Method), r2.id = some i → s.methods.lookup r2.method = some m2 →
      ((s.ServeRPC r1).2.1).ServeRPC r2 =
        (m2.serveRequest (some r2), { s with atMostOnce := some (i :: seen) }, true)) := by
  have h1 := Server.ServeRPC_notFound hm1
  rw [hid1] at h1
  refine ⟨h1, fun r2 m2 hid2 hm2 => ?_⟩
  rw [h1]
  exact Server.ServeRPC_fresh hA hfresh hid2 hm2

/-- C10, witness: "g" is not registered on the demonstration server, so
the request gets MethodNotFound and its id 1 stays unseen; the follow-up
request with id 1 to the registered "f" is dispatched. -/
theorem methodNotFound_leaves_dedup_unchanged_witness :
    demoServer.ServeRPC { jsonRpc := JsonRpc2, method := "g", params := some (.num 2), id := some 1 } =
      (errorResponse (some 1) ErrMethodNotFound, demoServer, false) ∧
    ((demoServer.ServeRPC
        { jsonRpc := JsonRpc2, method := "g", params := some (.num 2), id := some 1 }).2.1).ServeRPC
        { jsonRpc := JsonRpc2, method := "f", params := some (.num 2), id := some 1 } =
      (demoMethod.serveRequest
        (some { jsonRpc := JsonRpc2, method := "f", params := some (.num 2), id := some 1 }),
       { demoServer with atMostOnce := some [1] }, true) :=
  ⟨(methodNotFound_leaves_dedup_unchanged demoServer [] 1
      { jsonRpc := JsonRpc2, method := "g", params := some (.num 2), id := some 1 }
      rfl rfl rfl (by simp)).1,
   (methodNotFound_leaves_dedup_unchanged demoServer [] 1
      { jsonRpc := JsonRpc2, method := "g", params := some (.num 2), id := some 1 }
      rfl rfl rfl (by simp)).2
     { jsonRpc := JsonRpc2, method := "f", params := some (.num 2), id := some 1 } demoMethod
     rfl rfl⟩

/-! ## Claim C7: encode/decode round trips

Ground facts about the case-insensitive key matching on the wire keys
involved, so the decoding folds reduce. -/

/-- A key always matches itself. -/
theorem keyMatch_self (k : String) : keyMatch k k = true := by simp [keyMatch]

theorem keyMatch_method_jsonrpc : keyMatch "method" "jsonrpc" = false := by decide

theorem keyMatch_params_jsonrpc : keyMatch "params" "jsonrpc" = false := by decide

theorem keyMatch_params_method : keyMatch "params" "method" = false := by decide

theorem keyMatch_id_jsonrpc : keyMatch "id" "jsonrpc" = false := by decide

theorem keyMatch_id_method : keyMatch "id" "method" = false := by decide

theorem keyMatch_id_params : keyMatch "id" "params" = false := by decide

theorem keyMatch_result_jsonrpc : keyMatch "result" "jsonrpc" = false := by decide

theorem keyMatch_error_jsonrpc : keyMatch "error" "jsonrpc" = false := by decide

theorem keyMatch_error_result : keyMatch "error" "result" = false := by decide

theorem keyMatch_id_result : keyMatch "id" "result" = false := by decide

theorem keyMatch_id_error : keyMatch "id" "error" = false := by decide

theorem keyMatch_message_code : keyMatch "message" "code" = false := by decide

theorem keyMatch_data_code : keyMatch "data" "code" = false := by decide

theorem keyMatch_data_message : keyMatch "data" "message" = false := by decide

/-- C7, counterexample: a Request whose `params` RawMessage is Go nil
does not survive the round trip. `json.Marshal` emits `"params":null`
(the field lacks `omitempty`), and on decoding,
`json.RawMessage.UnmarshalJSON` copies the raw bytes `null` verbatim, so
the decoded Request holds the non-nil RawMessage `null` where the
original held nil — not field-for-field equal. -/
theorem request_roundtrip_cex :
    unmarshalRequestTree
        (Request.toJsonTree { jsonRpc := "2.0", method := "m", params := none, id := some 1 }) =
      .ok { jsonRpc := "2.0", method := "m", params := some .null, id := some 1 } ∧
    ({ jsonRpc := "2.0", method := "m", params := some .null, id := some 1 } : Request) ≠
      { jsonRpc := "2.0", method := "m", params := none, id := some 1 } := by
  refine ⟨rfl, fun h => ?_⟩
  have hp := congrArg Request.params h
  simp at hp

/-! Routing steps of the decoding folds, one per (wire key, value shape)
pair that the encoder can emit. The keys are literals, so each is a
definitional computation. -/

theorem Request.setField_jsonrpc (acc : Request) (s : String) :
    acc.setField "jsonrpc" (.str s) = .ok { acc with jsonRpc := s } := rfl

theorem Request.setField_method (acc : Request) (s : String) :
    acc.setField "method" (.str s) = .ok { acc with method := s } := rfl

theorem Request.setField_params (acc : Request) (v : Json) :
    acc.setField "params" v = .ok { acc with params := some v } := rfl

theorem Request.setField_id_null (acc : Request) :
    acc.setField "id" .null = .ok { acc with id := none } := rfl

theorem Request.setField_id_num (acc : Request) (n : Int) :
    acc.setField "id" (.num n) = .ok { acc with id := some n } := rfl

theorem ErrorObj.setField_code (acc : ErrorObj) (n : Int) :
    acc.setField "code" (.num n) = .ok { acc with code := n } := rfl

theorem ErrorObj.setField_message (acc : ErrorObj) (s : String) :
    acc.setField "message" (.str s) = .ok { acc with message := s } := rfl

theorem ErrorObj.setField_data (acc : ErrorObj) (v : Json) :
    acc.setField "data" v = .ok { acc with data := some v } := rfl

theorem Response.setFieldJsonrpc (acc : Response) (s : String) :
    acc.setField "jsonrpc" (.str s) = .ok { acc with jsonRpc := s } := rfl

theorem Response.setField_result (acc : Response) (v : Json) :
    acc.setField "result" v = .ok { acc with result := some v } := rfl

theorem Response.setField_error (acc : Response) (v : Json) (e : Option ErrorObj)
    (h : unmarshalErrorTree v = .ok e) :
    acc.setField "error" v = .ok { acc with error := e } := by
  have : acc.setField "error" v =
      match unmarshalErrorTree v with
      | .error e => .error e
      | .ok e => .ok { acc with error := e } := rfl
  rw [this, h]

theorem Response.setFieldIdNull (acc : Response) :
    acc.setField "id" .null = .ok { acc with id := none } := rfl

theorem Response.setFieldIdNum (acc : Response) (n : Int) :
    acc.setField "id" (.num n) = .ok { acc with id := some n } := rfl

/-- Round trip of the `Error` record through its wire object. -/
theorem unmarshalErrorTree_roundtrip (e : ErrorObj) :
    unmarshalErrorTree e.toJsonTree = .ok (some e) := by
  rcases e with ⟨c, msg, d⟩
  rcases d with _ | d <;>
    simp [ErrorObj.toJsonTree, unmarshalErrorTree, ErrorObj.setFields,
      ErrorObj.setField_code, ErrorObj.setField_message, ErrorObj.setField_data]

/-- C7, amended: encoding then decoding reproduces the value
field-for-field for every Request whose `params` is present (non-nil) —
the nil-`params` Request of the counterexample is the only exception —
and for every Response unconditionally (its optional fields carry
`omitempty`, so absent fields are omitted rather than emitted as null). -/
theorem roundtrip_amended :
    (∀ r : Request, r.params.isSome → unmarshalRequestTree r.toJsonTree = .ok r) ∧
    (∀ r : Response, unmarshalResponseTree r.toJsonTree = .ok r) := by
  constructor
  · rintro ⟨jr, mth, p, id⟩ hp
    rcases p with _ | p
    · simp at hp
    · rcases id with _ | i <;>
        simp [Request.toJsonTree, unmarshalRequestTree, Request.setFields,
          Request.setField_jsonrpc, Request.setField_method, Request.setField_params,
          Request.setField_id_null, Request.setField_id_num]
  · rintro ⟨jr, res, err, id⟩
    rcases res with _ | res <;> rcases err with _ | err <;> rcases id with _ | i <;>
      simp [Response.toJsonTree, unmarshalResponseTree, Response.setFields,
        Response.setFieldJsonrpc, Response.setField_result,
        Response.setField_error _ _ _ (unmarshalErrorTree_roundtrip _),
        Response.setFieldIdNull, Response.setFieldIdNum]

/-- C7, witness for the amended theorem: a concrete Request with present
params, and a concrete error Response, both round-tripping to
themselves. -/
theorem roundtrip_amended_witness :
    unmarshalRequestTree
        (Request.toJsonTree
          { jsonRpc := "2.0", method := "add",
            params := some (.obj [("A", .num 1), ("B", .num 2)]), id := some 1 }) =
      .ok
        { jsonRpc := "2.0", method := "add",
          params := some (.obj [("A", .num 1), ("B", .num 2)]), id := some 1 } ∧
    unmarshalResponseTree
        (Response.toJsonTree
          { jsonRpc := "2.0", result := none,
            error := some (ErrInvalidParams.withReason "bad"), id := some 1 }) =
      .ok
        { jsonRpc := "2.0", result := none,
          error := some (ErrInvalidParams.withReason "bad"), id := some 1 } :=
  ⟨roundtrip_amended.1 _ rfl, roundtrip_amended.2 _⟩

/-! ## Claim C8: the client id counter -/

/-- Two's-complement wrapping is the identity on the int64 range. -/
theorem int64wrap_eq_self {x : Int} (h0 : -2 ^ 63 ≤ x) (h1 : x < 2 ^ 63) :
    int64wrap x = x := by
  unfold int64wrap
  have h2 : (0:Int) ≤ x + 2 ^ 63 := by linarith
  have h3 : x + 2 ^ 63 < 2 ^ 64 := by
    have : (2:Int) ^ 64 = 2 ^ 63 + 2 ^ 63 := by norm_num
    linarith
  rw [Int.emod_eq_of_lt h2 h3]
  ring

/-- The ids issued by a run of `client.Call`s on one instance: starting
from counter value `m ≥ 0`, while the counter stays below `2^63` the
`n` calls build requests with ids `m+1, m+2, ..., m+n` and leave the
counter at `m+n`. -/
theorem callSeq_ids (n : Nat) : ∀ (m : Int), 0 ≤ m → m + n < 2 ^ 63 →
    (ClientState.callSeq { nextId := m } n).1 =
      (List.range n).map (fun (k : Nat) =>
        .ok { jsonRpc := JsonRpc2, method := "m",
              params := some (.num 0), id := some (m + k + 1) }) ∧
    (ClientState.callSeq { nextId := m } n).2 = { nextId := m + n } := by
  induction n with
  | zero => intro m h0 h1; simp [ClientState.callSeq]
  | succ n ih =>
    intro m h0 h1
    have hlt : m + 1 < 2 ^ 63 := by
      have : (0:Int) ≤ n := Int.natCast_nonneg n
      push_cast at h1
      linarith
    have hge : -2 ^ 63 ≤ m + 1 := by
      have : (0:Int) < 2 ^ 63 := by norm_num
      linarith
    have hw : int64wrap (m + 1) = m + 1 := int64wrap_eq_self hge hlt
    have hstep : ({ nextId := m } : ClientState).CallBuildRequest "m" (.goodArg (.num 0)) =
        ({ nextId := m + 1 },
         .ok { jsonRpc := JsonRpc2, method := "m", params := some (.num 0), id := some (m + 1) }) := by
      simp [ClientState.CallBuildRequest, hw, Request.validate, JsonRpc2]
    have hrec := ih (m + 1) (by linarith) (by push_cast at h1 ⊢; linarith)
    refine ⟨?_, ?_⟩
    · simp only [ClientState.callSeq, hstep, hrec.1, List.range_succ_eq_map, List.map_cons,
        List.map_map, List.cons.injEq, Nat.cast_zero, add_zero, true_and]
      apply List.map_congr_left
      intro k _
      simp only [Function.comp_apply, Except.ok.injEq, Request.mk.injEq, Option.some.injEq,
        true_and]
      push_cast
      ring
    · simp only [ClientState.callSeq, hstep, hrec.2]
      congr 1
      push_cast
      ring

/-- C8, counterexample: the id counter is not process-wide but a field
of each `client` instance (client.go line 160), zero-initialised by
`NewClient`. Two independently constructed clients each issue id 1 for
their first call, so across the process the same id is issued twice —
with a process-wide counter the second call would have received an id
greater than 1. -/
theorem client_id_counter_not_processwide_cex :
    (NewClient.CallBuildRequest "m" (.goodArg (.num 0))).2 =
      .ok { jsonRpc := JsonRpc2, method := "m", params := some (.num 0), id := some 1 } ∧
    (NewClient.CallBuildRequest "m2" (.goodArg (.num 7))).2 =
      .ok { jsonRpc := JsonRpc2, method := "m2", params := some (.num 7), id := some 1 } :=
  ⟨rfl, rfl⟩

/-- C8, amended: the counter is per client instance. Within one
instance, while fewer than `2^63` calls have been made (the `int64`
counter does not wrap), `Call` obtains a fresh id by atomically
incrementing the instance's counter: the ids issued are `1, 2, ..., n` —
the first is strictly greater than zero, and they are strictly
increasing, pairwise distinct, and never reused. Distinct instances have
independent counters and may repeat each other's ids. -/
theorem client_ids_per_instance (n : Nat) (h : (n : Int) < 2 ^ 63) :
    (NewClient.callSeq n).1 =
      ((List.range n).map (fun (k : Nat) => (k : Int) + 1)).map
        (fun i => .ok { jsonRpc := JsonRpc2, method := "m", params := some (.num 0), id := some i }) ∧
    (∀ i ∈ (List.range n).map (fun (k : Nat) => (k : Int) + 1), 0 < i) ∧
    ((List.range n).map (fun (k : Nat) => (k : Int) + 1)).Pairwise (· < ·) := by
  have h0 := callSeq_ids n 0 le_rfl (by push_cast; linarith)
  refine ⟨?_, ?_, ?_⟩
  · rw [show NewClient = ({ nextId := 0 } : ClientState) from rfl, h0.1, List.map_map]
    apply List.map_congr_left
    intro k _
    simp only [Function.comp_apply]
    congr 3
    ring
  · intro i hi
    simp only [List.mem_map, List.mem_range] at hi
    obtain ⟨k, _, rfl⟩ := hi
    have : (0:Int) ≤ k := Int.natCast_nonneg k
    linarith
  · refine List.Pairwise.map _ (fun a b hab => ?_) (List.pairwise_lt_range n)
    have : (a:Int) < (b:Int) := by exact_mod_cast hab
    linarith

/-- C8, witness for the amended theorem: three calls on one fresh client
issue ids 1, 2, 3. -/
theorem client_ids_per_instance_witness :
    (NewClient.callSeq 3).1 =
      ((List.range 3).map (fun (k : Nat) => (k : Int) + 1)).map
        (fun i => .ok { jsonRpc := JsonRpc2, method := "m", params := some (.num 0), id := some i }) ∧
    (∀ i ∈ (List.range 3).map (fun (k : Nat) => (k : Int) + 1), 0 < i) ∧
    ((List.range 3).map (fun (k : Nat) => (k : Int) + 1)).Pairwise (· < ·) :=
  client_ids_per_instance 3 (by norm_num)

end SimpleRpc
